import Mathlib

/-!
A shallow embedding of wizwalker's memory reader
(`wizwalker/memory/memory_reader.py`) and mouse handler
(`wizwalker/mouse_handler.py`), with theorems checking the stated
behaviour of the code.

Conventions of the embedding:
* machine addresses and bytes are `Nat`; byte strings are `List Nat`;
* the OS calls performed through `pymem` (`virtual_query`, raw
  `read_bytes`/`write_bytes` syscalls) are an explicit environment
  record supplied to each function;
* Python exceptions become `Except` values of the inductive `WizError`;
* the unbounded `while` loops of the scanner take an explicit fuel
  argument and return `none` when the fuel runs out, which on the
  region-tiling address spaces used in the witnesses never happens.
-/

namespace Wizwalker

/-- A compiled wildcard pattern: each position either requires an exact
byte (`some b`) or matches any byte (`none`), mirroring the
wildcard-capable byte signatures fed to `re.finditer`. -/
def Pattern : Type := List (Option Nat)

instance : DecidableEq Pattern := by
  unfold Pattern
  infer_instance

/-- Whether the pattern matches at the start of the byte list
(a wildcard position accepts any byte; the match fails if the bytes run
out before the pattern does). -/
def matchPrefix : List (Option Nat) → List Nat → Bool
  | [], _ => true
  | _ :: _, [] => false
  | m :: ps, b :: bs =>
    (match m with
     | none => true
     | some v => v == b) && matchPrefix ps bs

/-- One step of `re.finditer` emulation: starting the search at index
`i`, collect the start offsets of every non-overlapping match,
advancing past a found match (or by one byte when the pattern is empty
or no match starts at `i`).  `fuel` bounds the recursion; `bytes.length
+ 2` is always enough. -/
def findIterFrom (pat : Pattern) (bytes : List Nat) : Nat → Nat → List Nat
  | _, 0 => []
  | i, fuel + 1 =>
    if i ≤ bytes.length then
      if matchPrefix pat (bytes.drop i) then
        i :: findIterFrom pat bytes (i + max pat.length 1) fuel
      else
        findIterFrom pat bytes (i + 1) fuel
    else
      []

/-- All start offsets of non-overlapping occurrences of `pat` in
`bytes`, leftmost first — the model of `re.finditer(pattern,
page_bytes)`. -/
def findIter (pat : Pattern) (bytes : List Nat) : List Nat :=
  findIterFrom pat bytes 0 (bytes.length + 2)

/-- The result of `pymem.memory.virtual_query`: one virtual-memory
region's metadata (`MEMORY_BASIC_INFORMATION`). -/
structure MemRegion where
  BaseAddress : Nat
  RegionSize : Nat
  state : Nat
  protect : Nat
deriving DecidableEq

/-- `MEMORY_STATE.MEM_COMMIT`. -/
def MEM_COMMIT : Nat := 0x1000

/-- `MEMORY_PROTECTION.PAGE_EXECUTE_READ`. -/
def PAGE_EXECUTE_READ : Nat := 0x20

/-- `MEMORY_PROTECTION.PAGE_EXECUTE_READWRITE`. -/
def PAGE_EXECUTE_READWRITE : Nat := 0x40

/-- `MEMORY_PROTECTION.PAGE_READWRITE`. -/
def PAGE_READWRITE : Nat := 0x04

/-- `MEMORY_PROTECTION.PAGE_READONLY`. -/
def PAGE_READONLY : Nat := 0x02

/-- The `allowed_protections` list of `_scan_page_return_all`. -/
def allowed_protections : List Nat :=
  [PAGE_EXECUTE_READ, PAGE_EXECUTE_READWRITE, PAGE_READWRITE, PAGE_READONLY]

/-- The user-space ceiling `0x7FFFFFFF0000` used by `_scan_all_from`. -/
def SCAN_CEILING : Nat := 0x7FFFFFFF0000

/-- The OS facilities the scanner uses through `pymem`: region metadata
lookup by address and raw byte reads.  A concrete instance plays the
role of a simulated address space. -/
structure ScanEnv where
  virtualQuery : Nat → MemRegion
  readBytes : Nat → Nat → List Nat

/-- `MemoryReader._scan_page_return_all`: query the region containing
`address`; if it is not committed or its protection is not allowed,
return `(next_region, none)` without reading; otherwise read
`RegionSize` bytes at `address` and return all pattern-match addresses
inside them. -/
def _scan_page_return_all (env : ScanEnv) (address : Nat) (pattern : Pattern) :
    Nat × Option (List Nat) :=
  let mbi := env.virtualQuery address
  let next_region := mbi.BaseAddress + mbi.RegionSize
  if mbi.state ≠ MEM_COMMIT ∨ mbi.protect ∉ allowed_protections then
    (next_region, none)
  else
    let page_bytes := env.readBytes address mbi.RegionSize
    let found := (findIter pattern page_bytes).map (fun off => address + off)
    (next_region, some found)

/-- The `while next_region < 0x7FFFFFFF0000` loop of
`MemoryReader._scan_all_from`, with the accumulated `found` list
threaded explicitly and an explicit fuel (`none` = fuel exhausted
before the loop finished). -/
def _scan_all_loop (env : ScanEnv) (pattern : Pattern) (return_multiple : Bool) :
    Nat → Nat → List Nat → Option (List Nat)
  | 0, next_region, found =>
    if next_region < SCAN_CEILING then none else some found
  | fuel + 1, next_region, found =>
    if next_region < SCAN_CEILING then
      let r := _scan_page_return_all env next_region pattern
      let found' := found ++ (r.2.getD [])
      if ¬ return_multiple ∧ found' ≠ [] then some found'
      else _scan_all_loop env pattern return_multiple fuel r.1 found'
    else some found

/-- `MemoryReader._scan_all_from`: whole-process scan starting at
`start_address`. -/
def _scan_all_from (env : ScanEnv) (fuel : Nat) (start_address : Nat)
    (pattern : Pattern) (return_multiple : Bool) : Option (List Nat) :=
  _scan_all_loop env pattern return_multiple fuel start_address []

/-- A loaded module's placement, as returned by
`pymem.process.module_from_name` (`MODULEINFO`). -/
structure ProcModule where
  lpBaseOfDll : Nat
  SizeOfImage : Nat
deriving DecidableEq

/-- The `while page_address < max_address` loop of
`MemoryReader._scan_entire_module`. -/
def _scan_module_loop (env : ScanEnv) (pattern : Pattern) (max_address : Nat) :
    Nat → Nat → List Nat → Option (List Nat)
  | 0, page_address, found =>
    if page_address < max_address then none else some found
  | fuel + 1, page_address, found =>
    if page_address < max_address then
      let r := _scan_page_return_all env page_address pattern
      _scan_module_loop env pattern max_address fuel r.1 (found ++ (r.2.getD []))
    else some found

/-- `MemoryReader._scan_entire_module`: scan from the module base until
the cursor reaches `lpBaseOfDll + SizeOfImage`. -/
def _scan_entire_module (env : ScanEnv) (fuel : Nat) (module : ProcModule)
    (pattern : Pattern) : Option (List Nat) :=
  _scan_module_loop env pattern (module.lpBaseOfDll + module.SizeOfImage)
    fuel module.lpBaseOfDll []

/-- The exceptions raised by the embedded code (`PatternFailed`,
`PatternMultipleResults`, `ClientClosedError`, `MemoryReadError`,
`MemoryWriteError`, the `ValueError` of an invalid type name, the
`struct.error` of a value a format cannot pack, and the `RuntimeError`
of a failed `ClientToScreen` call). -/
inductive WizError where
  | patternFailed (pattern : Pattern)
  | patternMultipleResults (count : Nat) (pattern : Pattern)
  | clientClosed
  | memoryRead (address : Nat)
  | memoryWrite (address : Nat)
  | invalidType (data_type : String)
  | structError
  | clientToScreenFailed
deriving DecidableEq

deriving instance DecidableEq for Except

/-- A pattern scan's return value: a single address, or the full list
when multiple results were requested. -/
inductive ScanResult where
  | single (address : Nat)
  | many (addresses : List Nat)
deriving DecidableEq

/-- The dispatch half of `MemoryReader.pattern_scan`: module scans go
through `_scan_entire_module` (which takes no `return_multiple`), and
whole-process scans start at the process base
(`self.process.process_base.lpBaseOfDll`). -/
def pattern_scan_found (env : ScanEnv) (process_base : Nat) (fuel : Nat)
    (pattern : Pattern) (module : Option ProcModule) (return_multiple : Bool) :
    Option (List Nat) :=
  match module with
  | some m => _scan_entire_module env fuel m pattern
  | none => _scan_all_from env fuel process_base pattern return_multiple

/-- The result policy at the end of `MemoryReader.pattern_scan`
(lines 130-137): zero matches raise `PatternFailed`, several matches
without `return_multiple` raise `PatternMultipleResults`, otherwise the
full list or the single address is returned. -/
def pattern_scan_policy (pattern : Pattern) (return_multiple : Bool)
    (found_addresses : List Nat) : Except WizError ScanResult :=
  if found_addresses.length = 0 then
    .error (.patternFailed pattern)
  else if found_addresses.length > 1 ∧ ¬ return_multiple then
    .error (.patternMultipleResults found_addresses.length pattern)
  else if return_multiple then
    .ok (.many found_addresses)
  else
    .ok (.single (found_addresses.headD 0))

/-- `MemoryReader.pattern_scan`: scan (whole process or one module),
then apply the result policy. -/
def pattern_scan (env : ScanEnv) (process_base : Nat) (fuel : Nat)
    (pattern : Pattern) (module : Option ProcModule) (return_multiple : Bool) :
    Option (Except WizError ScanResult) :=
  (pattern_scan_found env process_base fuel pattern module return_multiple).map
    (pattern_scan_policy pattern return_multiple)

/-- The simulated process the byte-level I/O runs against: a byte at
every address, a map of which addresses the OS will let us touch
(an unmapped address makes the pymem syscall raise), and the liveness
bit reported by `utils.check_if_process_running`. -/
structure Backend where
  mem : Nat → Nat
  mapped : Nat → Bool
  running : Bool

/-- The raw `pymem.memory.read_bytes` syscall against the simulated
process: all-or-nothing — `none` (the pymem `MemoryReadError`) as soon
as any byte of the range is inaccessible. -/
def readSyscall (b : Backend) (address size : Nat) : Option (List Nat) :=
  if (List.range size).all (fun i => b.mapped (address + i)) then
    some ((List.range size).map (fun i => b.mem (address + i)))
  else
    none

/-- The raw `pymem.memory.write_bytes` syscall: `none` (the pymem
`MemoryWriteError`) when any target byte is inaccessible, otherwise the
backend with the range overwritten. -/
def writeSyscall (b : Backend) (address : Nat) (bytes : List Nat) :
    Option Backend :=
  if (List.range bytes.length).all (fun i => b.mapped (address + i)) then
    some { b with
           mem := fun a =>
             if address ≤ a ∧ a < address + bytes.length then
               bytes.getD (a - address) 0
             else b.mem a }
  else
    none

/-- `MemoryReader.read_bytes`: try the syscall; on failure check
liveness (only then) and classify as `ClientClosedError` or
`MemoryReadError address`. -/
def read_bytes (b : Backend) (address size : Nat) :
    Except WizError (List Nat) :=
  match readSyscall b address size with
  | some data => .ok data
  | none =>
    if ¬ b.running then .error .clientClosed
    else .error (.memoryRead address)

/-- `MemoryReader.write_bytes`: same classification as `read_bytes`,
with `MemoryWriteError` on a genuine fault; on success the updated
simulated process is returned. -/
def write_bytes (b : Backend) (address : Nat) (_bytes : List Nat) :
    Except WizError Backend :=
  match writeSyscall b address _bytes with
  | some b' => .ok b'
  | none =>
    if ¬ b.running then .error .clientClosed
    else .error (.memoryWrite address)

/-- The tags of the fixed type table: signed and unsigned integers of
widths 8/16/32/64 bits, 32/64-bit floats, boolean. -/
inductive TypeTag where
  | i8 | i16 | i32 | i64
  | u8 | u16 | u32 | u64
  | f32 | f64
  | boolean
deriving DecidableEq

/-- Modelled from the spec: the `type_format_dict` table imported from
the wizwalker package root is not under `src/`; per the spec it is "a
fixed mapping from short type identifiers (e.g., one for each of:
8/16/32/64-bit signed, 8/16/32/64-bit unsigned, 32-bit float, 64-bit
float, boolean) to (byte width, decode/encode rule)", consulted by both
`read_typed` and `write_typed` via `.get` (`none` for an unrecognized
name). -/
def type_format_dict (data_type : String) : Option TypeTag :=
  match data_type with
  | "int8" => some .i8
  | "int16" => some .i16
  | "int32" => some .i32
  | "int64" => some .i64
  | "uint8" => some .u8
  | "uint16" => some .u16
  | "uint32" => some .u32
  | "uint64" => some .u64
  | "float32" => some .f32
  | "float64" => some .f64
  | "bool" => some .boolean
  | _ => none

/-- `struct.calcsize` of each format: the type's fixed byte width. -/
def type_width : TypeTag → Nat
  | .i8 => 1 | .i16 => 2 | .i32 => 4 | .i64 => 8
  | .u8 => 1 | .u16 => 2 | .u32 => 4 | .u64 => 8
  | .f32 => 4 | .f64 => 8
  | .boolean => 1

/-- A typed value: integers carry a mathematical integer, floats carry
their IEEE-754 bit pattern (the codec moves bytes, so bit patterns are
the faithful value domain), booleans carry a `Bool`. -/
inductive TypedValue where
  | intVal (i : Int)
  | bitsVal (bits : Nat)
  | boolVal (b : Bool)
deriving DecidableEq

/-- Whether `v` is representable in type `t` (the values `struct.pack`
accepts for the format without error): integers within the tag's
signed/unsigned range, float bit patterns within the word width, any
boolean. -/
def representable (t : TypeTag) (v : TypedValue) : Bool :=
  match t, v with
  | .i8, .intVal i => decide (-(2 ^ 7) ≤ i ∧ i < 2 ^ 7)
  | .i16, .intVal i => decide (-(2 ^ 15) ≤ i ∧ i < 2 ^ 15)
  | .i32, .intVal i => decide (-(2 ^ 31) ≤ i ∧ i < 2 ^ 31)
  | .i64, .intVal i => decide (-(2 ^ 63) ≤ i ∧ i < 2 ^ 63)
  | .u8, .intVal i => decide (0 ≤ i ∧ i < 2 ^ 8)
  | .u16, .intVal i => decide (0 ≤ i ∧ i < 2 ^ 16)
  | .u32, .intVal i => decide (0 ≤ i ∧ i < 2 ^ 32)
  | .u64, .intVal i => decide (0 ≤ i ∧ i < 2 ^ 64)
  | .f32, .bitsVal n => decide (n < 2 ^ 32)
  | .f64, .bitsVal n => decide (n < 2 ^ 64)
  | .boolean, .boolVal _ => true
  | _, _ => false

/-- Little-endian byte serialization of a `w`-byte word. -/
def natToLE : Nat → Nat → List Nat
  | 0, _ => []
  | w + 1, v => v % 256 :: natToLE w (v / 256)

/-- Little-endian byte deserialization. -/
def leToNat : List Nat → Nat
  | [] => 0
  | b :: bs => b + 256 * leToNat bs

/-- `struct.pack` over the table's little-endian formats: `none` is the
`struct.error` of a value the format cannot pack (wrong kind or out of
range); otherwise exactly `type_width t` bytes.  A signed integer packs
as two's complement, a float as its IEEE-754 word, a boolean as a
single 0/1 byte. -/
def encode (t : TypeTag) (v : TypedValue) : Option (List Nat) :=
  if ¬ representable t v then none
  else
    match t, v with
    | .i8, .intVal i => some (natToLE 1 (i % 2 ^ 8).toNat)
    | .i16, .intVal i => some (natToLE 2 (i % 2 ^ 16).toNat)
    | .i32, .intVal i => some (natToLE 4 (i % 2 ^ 32).toNat)
    | .i64, .intVal i => some (natToLE 8 (i % 2 ^ 64).toNat)
    | .u8, .intVal i => some (natToLE 1 i.toNat)
    | .u16, .intVal i => some (natToLE 2 i.toNat)
    | .u32, .intVal i => some (natToLE 4 i.toNat)
    | .u64, .intVal i => some (natToLE 8 i.toNat)
    | .f32, .bitsVal n => some (natToLE 4 n)
    | .f64, .bitsVal n => some (natToLE 8 n)
    | .boolean, .boolVal b => some [if b then 1 else 0]
    | _, _ => none

/-- Two's-complement reading of a little-endian unsigned word of
`w` bytes. -/
def decodeSigned (w : Nat) (bytes : List Nat) : Int :=
  let u := leToNat bytes
  if u < 2 ^ (8 * w - 1) then (u : Int) else (u : Int) - 2 ^ (8 * w)

/-- `struct.unpack(...)[0]` over the table's formats, given the bytes
read for the type (`none` is the `struct.error` on a byte string of
the wrong length). -/
def decode (t : TypeTag) (bytes : List Nat) : Option TypedValue :=
  if bytes.length ≠ type_width t then none
  else
    match t with
    | .i8 => some (.intVal (decodeSigned 1 bytes))
    | .i16 => some (.intVal (decodeSigned 2 bytes))
    | .i32 => some (.intVal (decodeSigned 4 bytes))
    | .i64 => some (.intVal (decodeSigned 8 bytes))
    | .u8 => some (.intVal (leToNat bytes))
    | .u16 => some (.intVal (leToNat bytes))
    | .u32 => some (.intVal (leToNat bytes))
    | .u64 => some (.intVal (leToNat bytes))
    | .f32 => some (.bitsVal (leToNat bytes))
    | .f64 => some (.bitsVal (leToNat bytes))
    | .boolean => some (.boolVal (bytes.headD 0 ≠ 0))

/-- `MemoryReader.read_typed`: look the name up in the table (raising
`ValueError` when absent, before any I/O), read `struct.calcsize`
bytes, unpack. -/
def read_typed (b : Backend) (address : Nat) (data_type : String) :
    Except WizError TypedValue :=
  match type_format_dict data_type with
  | none => .error (.invalidType data_type)
  | some t =>
    match read_bytes b address (type_width t) with
    | .error e => .error e
    | .ok data =>
      match decode t data with
      | none => .error .structError
      | some v => .ok v

/-- `MemoryReader.write_typed`: look the name up (raising `ValueError`
when absent, before any I/O), pack the value, then write the packed
bytes. -/
def write_typed (b : Backend) (address : Nat) (value : TypedValue)
    (data_type : String) : Except WizError Backend :=
  match type_format_dict data_type with
  | none => .error (.invalidType data_type)
  | some t =>
    match encode t value with
    | none => .error .structError
    | some packed_data => write_bytes b address packed_data

/-- Which user32 dispatch function a window message went through:
`PostMessageW` (fire-and-forget) or `SendMessageW` (synchronous). -/
inductive DispatchMethod where
  | post
  | send
deriving DecidableEq

/-- One dispatched window message: handle, message id, the two
parameters, and the dispatch function used. -/
structure MouseMsg where
  hWnd : Nat
  message : Nat
  wParam : Nat
  lParam : Nat
  method : DispatchMethod
deriving DecidableEq

/-- The observable actions of the mouse handler, in program order: a
window message, an `asyncio.sleep`, or a `write_mouse_position` call
into the hook layer. -/
inductive ClickEvent where
  | message (m : MouseMsg)
  | sleep (duration : ℚ)
  | writeMousePosition (x y : Int)
deriving DecidableEq

/-- The mouse handler's surroundings: the client's window handle and
the `user32.ClientToScreen` call (`none` models a zero return, which
the code turns into a `RuntimeError`). -/
structure MouseEnv where
  window_handle : Nat
  clientToScreen : Nat → Int → Int → Option (Int × Int)

/-- `MouseHandler.set_mouse_position`: optionally convert
client-relative coordinates to screen coordinates, write the shared
mouse position for the hook layer, then dispatch a mouse-move message
(`0x200`) through the method chosen by `use_post`.  Returns the trace
of observable actions. -/
def set_mouse_position (env : MouseEnv) (x y : Int)
    (convert_from_client : Bool := true) (use_post : Bool := false) :
    Except WizError (List ClickEvent) :=
  let send_method := if use_post then DispatchMethod.post else DispatchMethod.send
  if convert_from_client then
    match env.clientToScreen env.window_handle x y with
    | none => .error .clientToScreenFailed
    | some point =>
      .ok [.writeMousePosition point.1 point.2,
           .message ⟨env.window_handle, 0x200, 0, 0, send_method⟩]
  else
    .ok [.writeMousePosition x y,
         .message ⟨env.window_handle, 0x200, 0, 0, send_method⟩]

/-- `MouseHandler.click`: under the click lock, set the mouse position
(note: the source calls `self.set_mouse_position(x, y)` with its
default keyword arguments), dispatch button-down, optionally sleep,
dispatch button-up; `0x204`/`0x201` are the right/left button-down
message ids and button-up is the next id.  Returns the trace of
observable actions of one uninterleaved invocation. -/
def click (env : MouseEnv) (x y : Int) (right_click : Bool := false)
    (sleep_duration : ℚ := 0) (use_post : Bool := false) :
    Except WizError (List ClickEvent) :=
  let button_down_message : Nat := if right_click then 0x204 else 0x201
  let send_method := if use_post then DispatchMethod.post else DispatchMethod.send
  match set_mouse_position env x y with
  | .error e => .error e
  | .ok evs =>
    .ok (evs
      ++ [.message ⟨env.window_handle, button_down_message, 1, 0, send_method⟩]
      ++ (if sleep_duration > 0 then [.sleep sleep_duration] else [])
      ++ [.message ⟨env.window_handle, button_down_message + 1, 0, 0, send_method⟩])

/-! ### Concrete simulated environments used by the witnesses -/

/-- Byte contents of the simulated address space: the two-byte pattern
`01 02` occurs at 32 and 35 (same region) and at 48; the byte `07`
occurs only at 50. -/
def demoMem (a : Nat) : Nat :=
  if a = 32 ∨ a = 35 then 1
  else if a = 33 ∨ a = 36 then 2
  else if a = 48 then 1
  else if a = 49 then 2
  else if a = 50 then 7
  else 0

/-- Region map of the simulated address space: five regions tiling
`[0, 64 + SCAN_CEILING)` — readable, free (uncommitted), readable
twice, and a final huge region with a protection outside the allowed
list. -/
def demoQuery (a : Nat) : MemRegion :=
  if a < 16 then ⟨0, 16, MEM_COMMIT, PAGE_READONLY⟩
  else if a < 32 then ⟨16, 16, 0x10000, PAGE_READONLY⟩
  else if a < 48 then ⟨32, 16, MEM_COMMIT, PAGE_READWRITE⟩
  else if a < 64 then ⟨48, 16, MEM_COMMIT, PAGE_EXECUTE_READ⟩
  else ⟨64, SCAN_CEILING, MEM_COMMIT, 0⟩

/-- The simulated address space the scanner witnesses run against. -/
def demoScanEnv : ScanEnv :=
  ⟨demoQuery, fun a s => (List.range s).map (fun i => demoMem (a + i))⟩

/-- A two-byte exact pattern `01 02`. -/
def demoP : Pattern := [some 1, some 2]

/-- A one-byte exact pattern `07`, occurring exactly once in the
simulated address space. -/
def demoQ : Pattern := [some 7]

/-- A simulated module spanning the two readable regions `[32, 64)`. -/
def demoModule : ProcModule := ⟨32, 32⟩

/-- A live simulated process with addresses below 100 accessible. -/
def demoBackend : Backend :=
  ⟨fun _ => 0, fun a => a < 100, true⟩

/-- A dead simulated process with nothing accessible. -/
def demoDeadBackend : Backend :=
  ⟨fun _ => 0, fun _ => false, false⟩

/-- A mouse environment whose coordinate conversion adds a fixed
screen offset. -/
def demoMouseEnv : MouseEnv :=
  ⟨42, fun _ x y => some (x + 100, y + 200)⟩

/-- The trace of `click demoMouseEnv 1 2` with `use_post := true`. -/
def demoClickTrace : List ClickEvent :=
  [.writeMousePosition 101 202,
   .message ⟨42, 0x200, 0, 0, .send⟩,
   .message ⟨42, 0x201, 1, 0, .post⟩,
   .message ⟨42, 0x202, 0, 0, .post⟩]

/-! ### Helper lemmas -/

theorem natToLE_length (w x : Nat) : (natToLE w x).length = w := by
  induction w generalizing x with
  | zero => rfl
  | succ n ih => simp [natToLE, ih]

theorem leToNat_natToLE (w x : Nat) (h : x < 256 ^ w) :
    leToNat (natToLE w x) = x := by
  induction w generalizing x with
  | zero =>
    simp [natToLE, leToNat]
    omega
  | succ n ih =>
    simp only [natToLE, leToNat]
    rw [ih (x / 256) (by rw [Nat.div_lt_iff_lt_mul (by norm_num)]; rw [pow_succ] at h; omega)]
    omega

theorem map_getD_range (l : List Nat) :
    (List.range l.length).map (fun i => l.getD i 0) = l := by
  induction l with
  | nil => rfl
  | cons a t ih =>
    simp only [List.length_cons, List.range_succ_eq_map, List.map_cons, List.map_map]
    simp only [Function.comp_def, List.getD_cons_zero, List.getD_cons_succ]
    rw [ih]

/-! ### Claims -/

/-- C1: for every pattern scan (whole-process or module), the result
policy holds: an empty match list raises `PatternFailed` carrying the
pattern; more than one address with `return_multiple` false raises
`PatternMultipleResults`; exactly one address with `return_multiple`
false returns that single address (not a one-element list);
`return_multiple` true returns the full list. -/
theorem pattern_scan_result_policy_holds (env : ScanEnv) (process_base fuel : Nat)
    (pattern : Pattern) (module : Option ProcModule) (return_multiple : Bool)
    (found : List Nat)
    (h : pattern_scan_found env process_base fuel pattern module return_multiple =
      some found) :
    (found = [] →
      pattern_scan env process_base fuel pattern module return_multiple =
        some (.error (.patternFailed pattern))) ∧
    (1 < found.length → return_multiple = false →
      pattern_scan env process_base fuel pattern module return_multiple =
        some (.error (.patternMultipleResults found.length pattern))) ∧
    (∀ a, found = [a] → return_multiple = false →
      pattern_scan env process_base fuel pattern module return_multiple =
        some (.ok (.single a))) ∧
    (return_multiple = true → found ≠ [] →
      pattern_scan env process_base fuel pattern module return_multiple =
        some (.ok (.many found))) := by
  have hps : pattern_scan env process_base fuel pattern module return_multiple =
      some (pattern_scan_policy pattern return_multiple found) := by
    unfold pattern_scan
    rw [h]
    rfl
  refine ⟨?_, ?_, ?_, ?_⟩
  · intro he
    subst he
    rw [hps]
    simp [pattern_scan_policy]
  · intro hlen hrm
    subst hrm
    rw [hps]
    unfold pattern_scan_policy
    rw [if_neg (by omega), if_pos (by simpa using hlen)]
  · intro a he hrm
    subst he
    subst hrm
    rw [hps]
    simp [pattern_scan_policy]
  · intro hrm hne
    subst hrm
    rw [hps]
    unfold pattern_scan_policy
    rw [if_neg (by simpa using hne), if_neg (by simp), if_pos rfl]

/-- C1 witness: on the simulated address space, the one-byte pattern
`07` matches exactly once and a single-result scan returns its address
50 (not a one-element list). -/
theorem pattern_scan_result_policy_holds_witness :
    pattern_scan demoScanEnv 0 8 demoQ none false = some (.ok (.single 50)) :=
  (pattern_scan_result_policy_holds demoScanEnv 0 8 demoQ none false [50]
    (by decide)).2.2.1 50 rfl rfl

/-- C2: the whole-process scan starts its cursor at the process base
address and advances region-by-region while it is below the ceiling
`0x7FFFFFFF0000`; with `return_multiple` false it stops at the first
region that yields any match and scans no further regions (the result
no longer depends on the remaining fuel); with `return_multiple` true
every region up to the ceiling is scanned and matches are accumulated
in order. -/
theorem scan_all_from_region_walk (env : ScanEnv) (pattern : Pattern) :
    (∀ return_multiple base fuel,
      pattern_scan env base fuel pattern none return_multiple =
        (_scan_all_from env fuel base pattern return_multiple).map
          (pattern_scan_policy pattern return_multiple) ∧
      _scan_all_from env fuel base pattern return_multiple =
        _scan_all_loop env pattern return_multiple fuel base []) ∧
    (∀ return_multiple fuel addr found, ¬ addr < SCAN_CEILING →
      _scan_all_loop env pattern return_multiple fuel addr found = some found) ∧
    (∀ fuel addr found, addr < SCAN_CEILING →
      found ++ ((_scan_page_return_all env addr pattern).2.getD []) ≠ [] →
      _scan_all_loop env pattern false (fuel + 1) addr found =
        some (found ++ ((_scan_page_return_all env addr pattern).2.getD []))) ∧
    (∀ fuel addr found, addr < SCAN_CEILING →
      _scan_all_loop env pattern true (fuel + 1) addr found =
        _scan_all_loop env pattern true fuel
          (_scan_page_return_all env addr pattern).1
          (found ++ ((_scan_page_return_all env addr pattern).2.getD []))) := by
  refine ⟨fun _ _ _ => ⟨rfl, rfl⟩, ?_, ?_, ?_⟩
  · intro rm fuel addr found hge
    cases fuel <;> simp [_scan_all_loop, hge]
  · intro fuel addr found hlt hne
    simp only [_scan_all_loop]
    rw [if_pos hlt]
    simp [hne]
  · intro fuel addr found hlt
    simp only [_scan_all_loop]
    rw [if_pos hlt]
    simp

/-- C2 witness: on the simulated address space a multiple-results scan
steps from the cursor at 0 to the next region boundary and ends up
accumulating the matches of every region, in order. -/
theorem scan_all_from_region_walk_witness :
    _scan_all_loop demoScanEnv demoP true 8 0 [] = some [32, 35, 48] := by
  have h := (scan_all_from_region_walk demoScanEnv demoP).2.2.2 7 0 [] (by decide)
  exact h.trans (by decide)

/-- C3: a region whose commit state is not `MEM_COMMIT` or whose
protection is outside the allowed set is skipped without any byte
read — the scanner's answer is the same under every `readBytes`
oracle — and the cursor advances exactly to base + size; a region
passing both checks has its bytes read and searched. -/
theorem scan_page_skips_inaccessible_regions (env : ScanEnv) (address : Nat)
    (pattern : Pattern) (mbi : MemRegion) (h : env.virtualQuery address = mbi) :
    (mbi.state ≠ MEM_COMMIT ∨ mbi.protect ∉ allowed_protections →
      _scan_page_return_all env address pattern =
        (mbi.BaseAddress + mbi.RegionSize, none) ∧
      ∀ rb, _scan_page_return_all ⟨env.virtualQuery, rb⟩ address pattern =
        (mbi.BaseAddress + mbi.RegionSize, none)) ∧
    (mbi.state = MEM_COMMIT → mbi.protect ∈ allowed_protections →
      _scan_page_return_all env address pattern =
        (mbi.BaseAddress + mbi.RegionSize,
         some ((findIter pattern (env.readBytes address mbi.RegionSize)).map
           (fun off => address + off)))) := by
  constructor
  · intro hbad
    constructor
    · simp only [_scan_page_return_all, h]
      rw [if_pos hbad]
    · intro rb
      show (let mbi' := env.virtualQuery address
            let next_region := mbi'.BaseAddress + mbi'.RegionSize
            if mbi'.state ≠ MEM_COMMIT ∨ mbi'.protect ∉ allowed_protections then
              (next_region, none)
            else _) = _
      simp only [h]
      rw [if_pos hbad]
  · intro hstate hprot
    simp only [_scan_page_return_all, h]
    rw [if_neg (by simp [hstate, hprot])]

/-- C3 witness: the uncommitted region at 16 of the simulated address
space is skipped with the cursor moved to 32, and the same answer comes
back under a different byte oracle. -/
theorem scan_page_skips_inaccessible_regions_witness :
    _scan_page_return_all demoScanEnv 16 demoP = (32, none) ∧
    _scan_page_return_all ⟨demoScanEnv.virtualQuery, fun _ _ => [1, 2]⟩ 16 demoP =
      (32, none) := by
  have h := (scan_page_skips_inaccessible_regions demoScanEnv 16 demoP
    (demoQuery 16) rfl).1 (by decide)
  exact ⟨h.1.trans (by decide), (h.2 (fun _ _ => [1, 2])).trans (by decide)⟩

/-- C4: a module scan visits regions exactly over
`[module base, module base + image size)` — the cursor starts at the
module base and the loop runs while it is below base + size — and it
always scans the full range, accumulating every region's matches, with
`return_multiple` playing no role in the dispatch. -/
theorem module_scan_covers_full_range (env : ScanEnv) (pattern : Pattern)
    (module : ProcModule) :
    (∀ base fuel return_multiple,
      pattern_scan_found env base fuel pattern (some module) return_multiple =
        _scan_entire_module env fuel module pattern) ∧
    (∀ fuel, _scan_entire_module env fuel module pattern =
      _scan_module_loop env pattern (module.lpBaseOfDll + module.SizeOfImage) fuel
        module.lpBaseOfDll []) ∧
    (∀ fuel addr found, ¬ addr < module.lpBaseOfDll + module.SizeOfImage →
      _scan_module_loop env pattern (module.lpBaseOfDll + module.SizeOfImage)
        fuel addr found = some found) ∧
    (∀ fuel addr found, addr < module.lpBaseOfDll + module.SizeOfImage →
      _scan_module_loop env pattern (module.lpBaseOfDll + module.SizeOfImage)
        (fuel + 1) addr found =
      _scan_module_loop env pattern (module.lpBaseOfDll + module.SizeOfImage) fuel
        (_scan_page_return_all env addr pattern).1
        (found ++ ((_scan_page_return_all env addr pattern).2.getD []))) := by
  refine ⟨fun _ _ _ => rfl, fun _ => rfl, ?_, ?_⟩
  · intro fuel addr found hge
    cases fuel <;> simp [_scan_module_loop, hge]
  · intro fuel addr found hlt
    simp only [_scan_module_loop]
    rw [if_pos hlt]

/-- C4 witness: scanning the simulated module `[32, 64)` collects the
matches of both of its regions whether or not multiple results were
requested, and one loop step from 48 carries the earlier matches
along. -/
theorem module_scan_covers_full_range_witness :
    pattern_scan_found demoScanEnv 0 8 demoP (some demoModule) false =
      some [32, 35, 48] ∧
    _scan_module_loop demoScanEnv demoP
      (demoModule.lpBaseOfDll + demoModule.SizeOfImage) 8 48 [32, 35] =
      some [32, 35, 48] := by
  constructor
  · rw [(module_scan_covers_full_range demoScanEnv demoP demoModule).1 0 8 false]
    decide
  · have h := (module_scan_covers_full_range demoScanEnv demoP demoModule).2.2.2
      7 48 [32, 35] (by decide)
    exact h.trans (by decide)

/-- C10: with `return_multiple` false, all non-overlapping matches of
the first yielding region are collected before the early stop, so a
single region holding more than one occurrence makes `pattern_scan`
raise the multiple-results error even though no later region was
examined. -/
theorem first_region_matches_collected_before_stop (env : ScanEnv)
    (pattern : Pattern) :
    (∀ fuel addr l, addr < SCAN_CEILING →
      (_scan_page_return_all env addr pattern).2 = some l → l ≠ [] →
      _scan_all_loop env pattern false (fuel + 1) addr [] = some l) ∧
    (∀ fuel base found, _scan_all_from env fuel base pattern false = some found →
      1 < found.length →
      pattern_scan env base fuel pattern none false =
        some (.error (.patternMultipleResults found.length pattern))) := by
  constructor
  · intro fuel addr l hlt hpage hne
    simp only [_scan_all_loop]
    rw [if_pos hlt]
    simp [hpage, hne]
  · intro fuel base found h hlen
    have hps : pattern_scan env base fuel pattern none false =
        some (pattern_scan_policy pattern false found) := by
      unfold pattern_scan pattern_scan_found
      rw [show (_scan_all_from env fuel base pattern false) = some found from h]
      rfl
    rw [hps]
    unfold pattern_scan_policy
    rw [if_neg (by omega), if_pos (by simpa using hlen)]

/-- C10 witness: the region at 32 of the simulated address space holds
two occurrences of `01 02`; a single-result whole-process scan stops
there and raises the multiple-results error. -/
theorem first_region_matches_collected_before_stop_witness :
    pattern_scan demoScanEnv 0 8 demoP none false =
      some (.error (.patternMultipleResults 2 demoP)) := by
  have h := (first_region_matches_collected_before_stop demoScanEnv demoP).2
    8 0 [32, 35] (by decide) (by decide)
  exact h.trans (by decide)

/-- C5: when the underlying syscall of `read_bytes`/`write_bytes`
fails, a no-longer-running process yields `ClientClosedError` and a
running one yields `MemoryReadError`/`MemoryWriteError` carrying the
requested address; a successful syscall's result is the same whatever
the liveness bit says, so liveness is consulted only after a
failure. -/
theorem byte_io_error_classification (b : Backend) (address size : Nat)
    (_bytes : List Nat) :
    (readSyscall b address size = none → b.running = false →
      read_bytes b address size = .error .clientClosed) ∧
    (readSyscall b address size = none → b.running = true →
      read_bytes b address size = .error (.memoryRead address)) ∧
    (∀ data, readSyscall b address size = some data →
      ∀ r, read_bytes ⟨b.mem, b.mapped, r⟩ address size = .ok data) ∧
    (writeSyscall b address _bytes = none → b.running = false →
      write_bytes b address _bytes = .error .clientClosed) ∧
    (writeSyscall b address _bytes = none → b.running = true →
      write_bytes b address _bytes = .error (.memoryWrite address)) ∧
    (∀ b', writeSyscall b address _bytes = some b' →
      ∀ r, write_bytes ⟨b.mem, b.mapped, r⟩ address _bytes =
        .ok ⟨b'.mem, b'.mapped, r⟩) := by
  refine ⟨?_, ?_, ?_, ?_, ?_, ?_⟩
  · intro hnone hdead
    simp [read_bytes, hnone, hdead]
  · intro hnone hlive
    simp [read_bytes, hnone, hlive]
  · intro data hsome r
    have hsome' : readSyscall ⟨b.mem, b.mapped, r⟩ address size = some data := hsome
    simp [read_bytes, hsome']
  · intro hnone hdead
    simp [write_bytes, hnone, hdead]
  · intro hnone hlive
    simp [write_bytes, hnone, hlive]
  · intro b' hsome r
    unfold writeSyscall at hsome
    by_cases hc :
        ((List.range _bytes.length).all (fun i => b.mapped (address + i))) = true
    · rw [if_pos hc] at hsome
      injection hsome with hb'
      subst hb'
      have hc' :
          ((List.range _bytes.length).all
            (fun i => Backend.mapped ⟨b.mem, b.mapped, r⟩ (address + i))) = true := hc
      simp [write_bytes, writeSyscall, hc']
    · rw [if_neg hc] at hsome
      exact absurd hsome (by simp)

/-- C5 witness: against the simulated backends, a failed read on a live
process reports `MemoryReadError 200`, the same failure on a dead one
reports `ClientClosedError`, a failed write reports
`MemoryWriteError 200`, and a successful read's value is untouched by
the liveness bit. -/
theorem byte_io_error_classification_witness :
    read_bytes demoBackend 200 3 = .error (.memoryRead 200) ∧
    read_bytes demoDeadBackend 200 3 = .error .clientClosed ∧
    write_bytes demoBackend 200 [1] = .error (.memoryWrite 200) ∧
    read_bytes ⟨demoBackend.mem, demoBackend.mapped, true⟩ 0 2 = .ok [0, 0] := by
  refine ⟨?_, ?_, ?_, ?_⟩
  · exact (byte_io_error_classification demoBackend 200 3 [1]).2.1
      (by decide) (by decide)
  · exact (byte_io_error_classification demoDeadBackend 200 3 [1]).1
      (by decide) (by decide)
  · exact (byte_io_error_classification demoBackend 200 3 [1]).2.2.2.2.1
      rfl (by decide)
  · exact (byte_io_error_classification demoBackend 0 2 [1]).2.2.1
      [0, 0] (by decide) true

/-- C6: a type name absent from the fixed table makes both `read_typed`
and `write_typed` fail with the invalid-type error, for every backend
and value — no read is issued and no bytes are written. -/
theorem invalid_type_rejected_without_io (data_type : String)
    (h : type_format_dict data_type = none) :
    ∀ (b : Backend) (address : Nat) (value : TypedValue),
      read_typed b address data_type = .error (.invalidType data_type) ∧
      write_typed b address value data_type = .error (.invalidType data_type) := by
  intro b address value
  constructor
  · simp [read_typed, h]
  · simp [write_typed, h]

/-- C6 witness: the unrecognized name `not_a_type` is rejected by both
typed operations on the simulated backend. -/
theorem invalid_type_rejected_without_io_witness :
    read_typed demoBackend 0 "not_a_type" = .error (.invalidType "not_a_type") ∧
    write_typed demoBackend 0 (.intVal 5) "not_a_type" =
      .error (.invalidType "not_a_type") :=
  invalid_type_rejected_without_io "not_a_type" (by decide) demoBackend 0 (.intVal 5)

/-- C7: every recognized type round-trips: `decode (encode v) = v` for
every representable value, the encoding has exactly the type's fixed
width, and a `write_typed` followed by a `read_typed` of the same type
at the same address on the unchanged backend returns the value
written. -/
theorem typed_codec_round_trip :
    (∀ (t : TypeTag) (v : TypedValue), representable t v = true →
      ∃ bs, encode t v = some bs ∧ bs.length = type_width t ∧
        decode t bs = some v) ∧
    (∀ (b b' : Backend) (address : Nat) (data_type : String) (t : TypeTag)
        (v : TypedValue),
      type_format_dict data_type = some t → representable t v = true →
      write_typed b address v data_type = .ok b' →
      read_typed b' address data_type = .ok v) := by
  have roundtrip : ∀ (t : TypeTag) (v : TypedValue), representable t v = true →
      ∃ bs, encode t v = some bs ∧ bs.length = type_width t ∧
        decode t bs = some v := by
    intro t v hrep0
    have hrep := hrep0
    cases t <;> cases v <;>
      simp only [representable, Bool.false_eq_true, decide_eq_true_eq] at hrep
    case i8.intVal i =>
      refine ⟨natToLE 1 (i % 2 ^ 8).toNat, by simp [encode, hrep0],
        natToLE_length _ _, ?_⟩
      simp only [decode, natToLE_length, type_width, decodeSigned]
      rw [if_neg (by omega)]
      rw [leToNat_natToLE 1 _ (by omega)]
      refine congrArg some (congrArg TypedValue.intVal ?_)
      split <;> omega
    case i16.intVal i =>
      refine ⟨natToLE 2 (i % 2 ^ 16).toNat, by simp [encode, hrep0],
        natToLE_length _ _, ?_⟩
      simp only [decode, natToLE_length, type_width, decodeSigned]
      rw [if_neg (by omega)]
      rw [leToNat_natToLE 2 _ (by omega)]
      refine congrArg some (congrArg TypedValue.intVal ?_)
      split <;> omega
    case i32.intVal i =>
      refine ⟨natToLE 4 (i % 2 ^ 32).toNat, by simp [encode, hrep0],
        natToLE_length _ _, ?_⟩
      simp only [decode, natToLE_length, type_width, decodeSigned]
      rw [if_neg (by omega)]
      rw [leToNat_natToLE 4 _ (by omega)]
      refine congrArg some (congrArg TypedValue.intVal ?_)
      split <;> omega
    case i64.intVal i =>
      refine ⟨natToLE 8 (i % 2 ^ 64).toNat, by simp [encode, hrep0],
        natToLE_length _ _, ?_⟩
      simp only [decode, natToLE_length, type_width, decodeSigned]
      rw [if_neg (by omega)]
      rw [leToNat_natToLE 8 _ (by omega)]
      refine congrArg some (congrArg TypedValue.intVal ?_)
      split <;> omega
    case u8.intVal i =>
      refine ⟨natToLE 1 i.toNat, by simp [encode, hrep0], natToLE_length _ _, ?_⟩
      simp only [decode, natToLE_length, type_width]
      rw [if_neg (by omega)]
      rw [leToNat_natToLE 1 _ (by omega)]
      refine congrArg some (congrArg TypedValue.intVal ?_)
      omega
    case u16.intVal i =>
      refine ⟨natToLE 2 i.toNat, by simp [encode, hrep0], natToLE_length _ _, ?_⟩
      simp only [decode, natToLE_length, type_width]
      rw [if_neg (by omega)]
      rw [leToNat_natToLE 2 _ (by omega)]
      refine congrArg some (congrArg TypedValue.intVal ?_)
      omega
    case u32.intVal i =>
      refine ⟨natToLE 4 i.toNat, by simp [encode, hrep0], natToLE_length _ _, ?_⟩
      simp only [decode, natToLE_length, type_width]
      rw [if_neg (by omega)]
      rw [leToNat_natToLE 4 _ (by omega)]
      refine congrArg some (congrArg TypedValue.intVal ?_)
      omega
    case u64.intVal i =>
      refine ⟨natToLE 8 i.toNat, by simp [encode, hrep0], natToLE_length _ _, ?_⟩
      simp only [decode, natToLE_length, type_width]
      rw [if_neg (by omega)]
      rw [leToNat_natToLE 8 _ (by omega)]
      refine congrArg some (congrArg TypedValue.intVal ?_)
      omega
    case f32.bitsVal n =>
      refine ⟨natToLE 4 n, by simp [encode, hrep0], natToLE_length _ _, ?_⟩
      simp only [decode, natToLE_length, type_width]
      rw [if_neg (by omega)]
      rw [leToNat_natToLE 4 _ (by omega)]
    case f64.bitsVal n =>
      refine ⟨natToLE 8 n, by simp [encode, hrep0], natToLE_length _ _, ?_⟩
      simp only [decode, natToLE_length, type_width]
      rw [if_neg (by omega)]
      rw [leToNat_natToLE 8 _ (by omega)]
    case boolean.boolVal bl =>
      cases bl
      · exact ⟨[0], by simp [encode, hrep0], rfl, by simp [decode, type_width]⟩
      · exact ⟨[1], by simp [encode, hrep0], rfl, by simp [decode, type_width]⟩
  refine ⟨roundtrip, ?_⟩
  intro b b' address data_type t v hdict hrep hwrite
  obtain ⟨bs, hbs, hlen, hdec⟩ := roundtrip t v hrep
  simp only [write_typed, hdict, hbs] at hwrite
  have hws : writeSyscall b address bs = some b' := by
    cases hw : writeSyscall b address bs with
    | none =>
      simp only [write_bytes, hw] at hwrite
      split at hwrite <;> exact Except.noConfusion hwrite
    | some x =>
      simp only [write_bytes, hw] at hwrite
      injection hwrite with hx
      rw [hx]
  unfold writeSyscall at hws
  by_cases hc : ((List.range bs.length).all (fun i => b.mapped (address + i))) = true
  · rw [if_pos hc] at hws
    injection hws with hb'
    subst hb'
    have hread : read_bytes
        { b with
          mem := fun a =>
            if address ≤ a ∧ a < address + bs.length then bs.getD (a - address) 0
            else b.mem a }
        address (type_width t) = .ok bs := by
      have hc' : ((List.range (type_width t)).all
          (fun i => b.mapped (address + i))) = true := by
        rw [hlen] at hc
        exact hc
      simp only [read_bytes, readSyscall, hc', if_true]
      refine congrArg Except.ok ?_
      have hmap : ∀ i ∈ List.range (type_width t),
          (if address ≤ address + i ∧ address + i < address + bs.length then
            bs.getD (address + i - address) 0
          else b.mem (address + i)) = bs.getD i 0 := by
        intro i hi
        rw [List.mem_range] at hi
        rw [if_pos ⟨Nat.le_add_right _ _, by omega⟩]
        congr 1
        omega
      calc (List.range (type_width t)).map (fun i =>
              if address ≤ address + i ∧ address + i < address + bs.length then
                bs.getD (address + i - address) 0
              else b.mem (address + i))
          = (List.range (type_width t)).map (fun i => bs.getD i 0) :=
            List.map_congr_left hmap
        _ = (List.range bs.length).map (fun i => bs.getD i 0) := by rw [hlen]
        _ = bs := map_getD_range bs
    simp only [read_typed, hdict, hread, hdec]
  · rw [if_neg hc] at hws
    exact absurd hws (by simp)

/-- C7 witness: `int16` round-trips the value -2 through encode/decode
at width 2, and writing -2 as `int16` at address 10 of the simulated
backend then reading it back yields -2. -/
theorem typed_codec_round_trip_witness :
    (∃ bs, encode .i16 (.intVal (-2)) = some bs ∧ bs.length = type_width .i16 ∧
      decode .i16 bs = some (.intVal (-2))) ∧
    read_typed
      ((write_typed demoBackend 10 (.intVal (-2)) "int16").toOption.getD demoBackend)
      10 "int16" = .ok (.intVal (-2)) := by
  constructor
  · exact typed_codec_round_trip.1 .i16 (.intVal (-2)) (by decide)
  · exact typed_codec_round_trip.2 demoBackend _ 10 "int16" .i16 (.intVal (-2))
      (by decide) (by decide) rfl

/-- C9 counterexample: a `click` invocation with `use_post := true`
dispatches its mouse-move message through the synchronous send method
(the source calls `self.set_mouse_position(x, y)` without forwarding
`use_post`), so not every message of the invocation uses the post
method. -/
theorem click_use_post_not_forwarded_cex :
    click demoMouseEnv 1 2 false 0 true = .ok demoClickTrace ∧
    ClickEvent.message ⟨42, 0x200, 0, 0, .send⟩ ∈ demoClickTrace ∧
    DispatchMethod.send ≠ DispatchMethod.post := by
  refine ⟨by decide, by decide, by decide⟩

/-- C9 (amended): `use_post` selects the dispatch method for the
button-down and button-up messages of `click` and for the mouse-move
message of a direct `set_mouse_position` call; the mouse-move message
dispatched inside `click` always uses the synchronous send method,
because `click` does not forward `use_post` to `set_mouse_position`. -/
theorem click_dispatch_method_selection (env : MouseEnv) (x y : Int)
    (right_click : Bool) (sleep_duration : ℚ) (use_post : Bool) (point : Int × Int)
    (h : env.clientToScreen env.window_handle x y = some point) :
    click env x y right_click sleep_duration use_post =
      .ok ([.writeMousePosition point.1 point.2,
            .message ⟨env.window_handle, 0x200, 0, 0, .send⟩,
            .message ⟨env.window_handle, (if right_click then 0x204 else 0x201), 1, 0,
              (if use_post then .post else .send)⟩]
        ++ (if sleep_duration > 0 then [ClickEvent.sleep sleep_duration] else [])
        ++ [.message ⟨env.window_handle,
              (if right_click then 0x204 else 0x201) + 1, 0, 0,
              (if use_post then .post else .send)⟩]) ∧
    set_mouse_position env x y true use_post =
      .ok [.writeMousePosition point.1 point.2,
           .message ⟨env.window_handle, 0x200, 0, 0,
             (if use_post then DispatchMethod.post else .send)⟩] ∧
    set_mouse_position env x y false use_post =
      .ok [.writeMousePosition x y,
           .message ⟨env.window_handle, 0x200, 0, 0,
             (if use_post then DispatchMethod.post else .send)⟩] := by
  refine ⟨?_, ?_, ?_⟩
  · simp [click, set_mouse_position, h]
  · simp [set_mouse_position, h]
  · simp [set_mouse_position]

/-- C9 witness: a concrete right click without `use_post` routes every
message through the send method, with the expected message ids. -/
theorem click_dispatch_method_selection_witness :
    click demoMouseEnv 3 4 true 0 false =
      .ok [.writeMousePosition 103 204,
           .message ⟨42, 0x200, 0, 0, .send⟩,
           .message ⟨42, 0x204, 1, 0, .send⟩,
           .message ⟨42, 0x205, 0, 0, .send⟩] := by
  have h := (click_dispatch_method_selection demoMouseEnv 3 4 true 0 false
    (103, 204) (by decide)).1
  exact h.trans (by decide)

end Wizwalker
